import Mathlib

/-!
Verification of the WHALE cross-tabulation tool (src/app.py).

The core logic embedded here:
- `load_data` derives the year-filtered sample tables
  (`xue_sample_2019`, `baimo_sample_2019`);
- `get_exam_counts` groups the exam table (`basic`) by patient id and
  counts distinct `id_patient` (exam visit id) values per group;
- `main` builds the category-summary dictionary `stats` and, on the
  "calculate" button, intersects a threshold-defined base id set with
  the distinct-id sets of the selected datasets, reporting the size.

Rows of tabular data are modelled as Lean structures, tables as lists
of rows, pandas `set(col.unique())` as `List.toFinset`, pandas
`groupby` (which sorts its keys) as a map over the sorted distinct
keys, and the Python dict lookup `data_map[name]` (which can raise
`KeyError`) as an `Option`-returning map, the surrounding computation
as `Except`.
-/

namespace Whale

/-- A row of the exam table `basic` (columns `id_patientarchive`,
`id_patient`, `year`). `id_patient` distinguishes repeat visits. -/
structure ExamRow where
  patientId : Nat
  examVisitId : Nat
  year : Int
deriving DecidableEq, Repr

/-- A row of a sample table (`xue_sample` / `baimo_sample`), with
columns `id_patientarchive` and `year`. -/
structure SampleRow where
  patientId : Nat
  year : Int
deriving DecidableEq, Repr

/-- The loaded session data, as returned by `load_data` before the
year-filtered derivations: the exam table `basic`, the two sample
tables, and the id-only tables `wgs` and `clinical_data` (modelled by
their `id_patientarchive` column). -/
structure Snapshot where
  basic : List ExamRow
  xue_sample : List SampleRow
  baimo_sample : List SampleRow
  wgs : List Nat
  clinical_data : List Nat
deriving DecidableEq, Repr

/-- `xue_sample_2019 = xue_sample[xue_sample['year'] >= 2019]`. -/
def xue_sample_2019 (s : Snapshot) : List SampleRow :=
  s.xue_sample.filter (fun r => decide (2019 ≤ r.year))

/-- `baimo_sample_2019 = baimo_sample[baimo_sample['year'] >= 2019]`. -/
def baimo_sample_2019 (s : Snapshot) : List SampleRow :=
  s.baimo_sample.filter (fun r => decide (2019 ≤ r.year))

/-- `df['id_patientarchive']` of a sample table: its patient-id column. -/
def sampleIds (t : List SampleRow) : List Nat :=
  t.map (fun r => r.patientId)

/-- The set of distinct patient ids of the exam table
(`basic['id_patientarchive'].unique()`). -/
def examPatients (basic : List ExamRow) : Finset Nat :=
  (basic.map (fun r => r.patientId)).toFinset

/-- The number of distinct `id_patient` values among the rows of
`basic` belonging to patient `p`: one group's `nunique()` in
`basic.groupby('id_patientarchive')['id_patient'].nunique()`. -/
def examCountOf (basic : List ExamRow) (p : Nat) : Nat :=
  ((basic.filter (fun r => decide (r.patientId = p))).map
    (fun r => r.examVisitId)).toFinset.card

/-- `get_exam_counts(basic)`: group `basic` by `id_patientarchive`
(pandas sorts group keys) and count distinct `id_patient` per group,
yielding one `(id_patientarchive, exam_count)` row per patient. -/
def get_exam_counts (basic : List ExamRow) : List (Nat × Nat) :=
  ((basic.map (fun r => r.patientId)).dedup.insertionSort (· ≤ ·)).map
    (fun p => (p, examCountOf basic p))

/-- The three options of the exam-threshold select box:
`"全部"`, `"3次及以上"`, `"10次及以上"`. -/
inductive ExamThreshold where
  | all
  | atLeast3
  | atLeast10
deriving DecidableEq, Repr

/-- The base id set chosen by the threshold branch in `main`:
all distinct ids of `basic` for `全部`, otherwise the ids of the rows
of `exam_counts` whose `exam_count` meets the bound. -/
def base_ids (s : Snapshot) : ExamThreshold → Finset Nat
  | .all => (s.basic.map (fun r => r.patientId)).toFinset
  | .atLeast3 =>
      (((get_exam_counts s.basic).filter (fun pc => decide (3 ≤ pc.2))).map
        Prod.fst).toFinset
  | .atLeast10 =>
      (((get_exam_counts s.basic).filter (fun pc => decide (10 ≤ pc.2))).map
        Prod.fst).toFinset

/-- The `data_map` dictionary of `main`, sending a dataset label to the
`id_patientarchive` column of its table; `none` models the `KeyError`
a lookup of any other label raises. -/
def data_map (s : Snapshot) (name : String) : Option (List Nat) :=
  if name = "血浆样本" then some (sampleIds s.xue_sample)
  else if name = "血浆（19年后）" then some (sampleIds (xue_sample_2019 s))
  else if name = "白膜层样本" then some (sampleIds s.baimo_sample)
  else if name = "白膜层（19年后）" then some (sampleIds (baimo_sample_2019 s))
  else if name = "WGS表型" then some s.wgs
  else if name = "临床数据" then some s.clinical_data
  else none

/-- The six labels offered by the multiselect widget, i.e. exactly the
keys of `data_map`. -/
def validSelectors : List String :=
  ["血浆样本", "血浆（19年后）", "白膜层样本", "白膜层（19年后）", "WGS表型", "临床数据"]

/-- The two ways the button handler can fail: the usage guard
(`st.warning`, no count computed) and the `KeyError` on an unknown
dataset label. -/
inductive QueryError where
  | usageGuard
  | unknownSelector (name : String)
deriving DecidableEq, Repr

deriving instance DecidableEq for Except

/-- The `for dataset_name in selected_datasets` loop of `main`:
`result_ids = result_ids.intersection(set(data_map[name]['id_patientarchive'].unique()))`,
with the `KeyError` of an unknown key surfaced as an error. -/
def intersectLoop (s : Snapshot) : Finset Nat → List String → Except QueryError (Finset Nat)
  | acc, [] => .ok acc
  | acc, name :: rest =>
    match data_map s name with
    | none => .error (.unknownSelector name)
    | some col => intersectLoop s (acc ∩ col.toFinset) rest

/-- The body of the "计算交叉人数" button: guard against the
threshold-`全部`, no-dataset query, otherwise resolve the base set,
intersect it with every selected dataset's distinct ids, and return
`len(result_ids)`. -/
def calculate (s : Snapshot) (exam_threshold : ExamThreshold)
    (selected_datasets : List String) : Except QueryError Nat :=
  if selected_datasets = [] ∧ exam_threshold = ExamThreshold.all then
    .error .usageGuard
  else
    match intersectLoop s (base_ids s exam_threshold) selected_datasets with
    | .error e => .error e
    | .ok result_ids => .ok result_ids.card

/-- The `stats` dictionary of `main` (a Python dict preserves insertion
order), as the ordered list of its label/count pairs. -/
def stats (s : Snapshot) : List (String × Nat) :=
  [("体检数据总人数", (s.basic.map (fun r => r.patientId)).toFinset.card),
   ("体检≥3次", ((get_exam_counts s.basic).filter (fun pc => decide (3 ≤ pc.2))).length),
   ("体检≥10次", ((get_exam_counts s.basic).filter (fun pc => decide (10 ≤ pc.2))).length),
   ("血浆样本", (sampleIds s.xue_sample).toFinset.card),
   ("血浆（19年后）", (sampleIds (xue_sample_2019 s)).toFinset.card),
   ("白膜层样本", (sampleIds s.baimo_sample).toFinset.card),
   ("白膜层（19年后）", (sampleIds (baimo_sample_2019 s)).toFinset.card),
   ("WGS表型", s.wgs.toFinset.card),
   ("临床数据", s.clinical_data.toFinset.card)]

/-! ## Specification-side definitions -/

/-- The distinct-id set a selector resolves to (empty for an unknown
selector; only used under the assumption that the selector is known). -/
def selIds (s : Snapshot) (name : String) : Finset Nat :=
  ((data_map s name).getD []).toFinset

/-- The patients of the exam table whose derived exam count is at
least `k`, as the spec phrases the threshold populations. -/
def patientsMeeting (basic : List ExamRow) (k : Nat) : Finset Nat :=
  (examPatients basic).filter (fun p => k ≤ examCountOf basic p)

/-- The numeric bound a threshold stands for. -/
def thresholdMin : ExamThreshold → Nat
  | .all => 0
  | .atLeast3 => 3
  | .atLeast10 => 10

/-- The base population as the spec phrases it: all distinct exam
patients for NONE, otherwise the patients whose derived exam count
meets the bound. -/
def specBase (s : Snapshot) : ExamThreshold → Finset Nat
  | .all => examPatients s.basic
  | .atLeast3 => patientsMeeting s.basic 3
  | .atLeast10 => patientsMeeting s.basic 10

/-- The intersection the spec describes, written extensionally: the
members of the base population lying in every selected dataset. -/
def specCross (s : Snapshot) (thr : ExamThreshold) (sel : List String) : Finset Nat :=
  (specBase s thr).filter (fun p => ∀ name ∈ sel, p ∈ selIds s name)

/-- The number of distinct patient ids in an id column (`nunique`). -/
def distinctCount (ids : List Nat) : Nat :=
  ids.toFinset.card

/-! ## Demonstration data (used by witnesses) -/

/-- A small concrete snapshot: patient 1 has three distinct exam
visits, patient 2 has one, patient 3 has ten. -/
def demoSnap : Snapshot :=
  { basic :=
      [⟨1, 10, 2018⟩, ⟨1, 11, 2019⟩, ⟨1, 12, 2020⟩, ⟨2, 20, 2021⟩,
       ⟨3, 30, 2010⟩, ⟨3, 31, 2011⟩, ⟨3, 32, 2012⟩, ⟨3, 33, 2013⟩,
       ⟨3, 34, 2014⟩, ⟨3, 35, 2015⟩, ⟨3, 36, 2016⟩, ⟨3, 37, 2017⟩,
       ⟨3, 38, 2018⟩, ⟨3, 39, 2019⟩],
    xue_sample := [⟨1, 2018⟩, ⟨2, 2020⟩, ⟨3, 2017⟩],
    baimo_sample := [⟨1, 2020⟩, ⟨3, 2016⟩],
    wgs := [1, 2],
    clinical_data := [2, 3] }

example : get_exam_counts demoSnap.basic = [(1, 3), (2, 1), (3, 10)] := by rfl

example : calculate demoSnap ExamThreshold.atLeast3 ["血浆样本"] = .ok 2 := by decide

example : calculate demoSnap ExamThreshold.all [] = .error .usageGuard := by decide

example : calculate demoSnap ExamThreshold.atLeast10 ["血浆样本", "临床数据"] = .ok 1 := by
  decide

/-! ## Helper lemmas -/

lemma mem_groupKeys {l : List Nat} {p : Nat} :
    p ∈ l.dedup.insertionSort (· ≤ ·) ↔ p ∈ l := by
  rw [(List.perm_insertionSort _ _).mem_iff, List.mem_dedup]

lemma nodup_groupKeys (l : List Nat) : (l.dedup.insertionSort (· ≤ ·)).Nodup :=
  (List.perm_insertionSort _ _).nodup_iff.mpr l.nodup_dedup

lemma mem_get_exam_counts {basic : List ExamRow} {pc : Nat × Nat} :
    pc ∈ get_exam_counts basic ↔
      pc.1 ∈ basic.map (fun r => r.patientId) ∧ pc.2 = examCountOf basic pc.1 := by
  unfold get_exam_counts
  rw [List.mem_map]
  constructor
  · rintro ⟨p, hp, rfl⟩
    exact ⟨mem_groupKeys.mp hp, rfl⟩
  · rintro ⟨hp, h2⟩
    refine ⟨pc.1, mem_groupKeys.mpr hp, ?_⟩
    cases pc
    simp_all

lemma map_fst_get_exam_counts (basic : List ExamRow) :
    (get_exam_counts basic).map Prod.fst
      = (basic.map (fun r => r.patientId)).dedup.insertionSort (· ≤ ·) := by
  unfold get_exam_counts
  rw [List.map_map,
    show (Prod.fst ∘ fun p : Nat => ((p, examCountOf basic p) : Nat × Nat)) = id from rfl,
    List.map_id]

lemma nodup_map_fst_get_exam_counts (basic : List ExamRow) :
    ((get_exam_counts basic).map Prod.fst).Nodup := by
  rw [map_fst_get_exam_counts]
  exact nodup_groupKeys _

lemma filter_counts_toFinset (basic : List ExamRow) (k : Nat) :
    (((get_exam_counts basic).filter (fun pc => decide (k ≤ pc.2))).map
      Prod.fst).toFinset = patientsMeeting basic k := by
  ext p
  constructor
  · intro hp
    rw [List.mem_toFinset] at hp
    rcases List.mem_map.mp hp with ⟨pc, hpc, hfst⟩
    rcases List.mem_filter.mp hpc with ⟨hmem, hk⟩
    rcases mem_get_exam_counts.mp hmem with ⟨hq, hc⟩
    rw [decide_eq_true_eq] at hk
    rw [hc] at hk
    subst hfst
    rw [patientsMeeting, Finset.mem_filter, examPatients, List.mem_toFinset]
    exact ⟨hq, hk⟩
  · intro hp
    rw [patientsMeeting, Finset.mem_filter, examPatients, List.mem_toFinset] at hp
    rw [List.mem_toFinset]
    refine List.mem_map.mpr ⟨(p, examCountOf basic p), ?_, rfl⟩
    refine List.mem_filter.mpr ⟨mem_get_exam_counts.mpr ⟨hp.1, rfl⟩, ?_⟩
    rw [decide_eq_true_eq]
    exact hp.2

lemma base_ids_eq_specBase (s : Snapshot) (thr : ExamThreshold) :
    base_ids s thr = specBase s thr := by
  cases thr with
  | all => rfl
  | atLeast3 => exact filter_counts_toFinset s.basic 3
  | atLeast10 => exact filter_counts_toFinset s.basic 10

lemma length_filter_counts (basic : List ExamRow) (k : Nat) :
    ((get_exam_counts basic).filter (fun pc => decide (k ≤ pc.2))).length
      = (patientsMeeting basic k).card := by
  have hsub : (((get_exam_counts basic).filter (fun pc => decide (k ≤ pc.2))).map
      Prod.fst).Sublist ((get_exam_counts basic).map Prod.fst) :=
    List.Sublist.map _ (List.filter_sublist _)
  have hnd := hsub.nodup (nodup_map_fst_get_exam_counts basic)
  calc ((get_exam_counts basic).filter (fun pc => decide (k ≤ pc.2))).length
      = (((get_exam_counts basic).filter (fun pc => decide (k ≤ pc.2))).map
          Prod.fst).length := by rw [List.length_map]
    _ = (((get_exam_counts basic).filter (fun pc => decide (k ≤ pc.2))).map
          Prod.fst).toFinset.card := (List.toFinset_card_of_nodup hnd).symm
    _ = (patientsMeeting basic k).card := by rw [filter_counts_toFinset]

lemma examCountOf_pos (basic : List ExamRow) (p : Nat)
    (hp : p ∈ basic.map (fun r => r.patientId)) : 1 ≤ examCountOf basic p := by
  rcases List.mem_map.mp hp with ⟨r, hr, hrp⟩
  have hmem : r.examVisitId ∈ ((basic.filter (fun x => decide (x.patientId = p))).map
      (fun x => x.examVisitId)).toFinset := by
    rw [List.mem_toFinset]
    exact List.mem_map.mpr ⟨r, List.mem_filter.mpr ⟨hr, by simp [hrp]⟩, rfl⟩
  exact Finset.card_pos.mpr ⟨_, hmem⟩

lemma intersectLoop_known (s : Snapshot) (sel : List String)
    (hk : ∀ n ∈ sel, (data_map s n).isSome) (acc : Finset Nat) :
    intersectLoop s acc sel
      = .ok (acc.filter (fun p => ∀ n ∈ sel, p ∈ selIds s n)) := by
  induction sel generalizing acc with
  | nil => simp [intersectLoop]
  | cons name rest ih =>
    obtain ⟨col, hcol⟩ := Option.isSome_iff_exists.mp (hk name (by simp))
    have hrest : ∀ n ∈ rest, (data_map s n).isSome := fun n hn => hk n (by simp [hn])
    have hsel : selIds s name = col.toFinset := by simp [selIds, hcol]
    have hstep : intersectLoop s acc (name :: rest)
        = intersectLoop s (acc ∩ col.toFinset) rest := by
      rw [intersectLoop, hcol]
    rw [hstep, ih hrest]
    congr 1
    ext p
    simp only [Finset.mem_filter, Finset.mem_inter, List.mem_cons]
    constructor
    · rintro ⟨⟨hacc, hcol2⟩, hrest2⟩
      refine ⟨hacc, ?_⟩
      rintro n (rfl | hn)
      · rwa [hsel]
      · exact hrest2 n hn
    · rintro ⟨hacc, hall⟩
      exact ⟨⟨hacc, hsel ▸ hall name (Or.inl rfl)⟩, fun n hn => hall n (Or.inr hn)⟩

lemma intersectLoop_ok_known (s : Snapshot) (sel : List String) (t : Finset Nat) :
    ∀ acc, intersectLoop s acc sel = .ok t → ∀ n ∈ sel, (data_map s n).isSome := by
  induction sel with
  | nil => simp
  | cons name rest ih =>
    intro acc h n hn
    cases hname : data_map s name with
    | none => rw [intersectLoop, hname] at h; exact absurd h (by simp)
    | some col =>
      rw [intersectLoop, hname] at h
      rcases List.mem_cons.mp hn with rfl | hn2
      · simp [hname]
      · exact ih _ h n hn2

lemma intersectLoop_ne_guard (s : Snapshot) (sel : List String) :
    ∀ acc, intersectLoop s acc sel ≠ .error QueryError.usageGuard := by
  induction sel with
  | nil => intro acc; simp [intersectLoop]
  | cons name rest ih =>
    intro acc
    cases hname : data_map s name with
    | none => simp [intersectLoop, hname]
    | some col => rw [intersectLoop, hname]; exact ih _

lemma intersectLoop_unknown (s : Snapshot) (sel : List String)
    (h : ∃ n ∈ sel, data_map s n = none) :
    ∃ bad ∈ sel, data_map s bad = none ∧
      ∀ acc, intersectLoop s acc sel = .error (QueryError.unknownSelector bad) := by
  induction sel with
  | nil => simp at h
  | cons name rest ih =>
    cases hname : data_map s name with
    | none =>
      exact ⟨name, by simp, hname, fun acc => by rw [intersectLoop, hname]⟩
    | some col =>
      have h2 : ∃ n ∈ rest, data_map s n = none := by
        rcases h with ⟨n, hn, hnone⟩
        rcases List.mem_cons.mp hn with rfl | hn2
        · rw [hname] at hnone; exact absurd hnone (by simp)
        · exact ⟨n, hn2, hnone⟩
      rcases ih h2 with ⟨bad, hmem, hbad, hloop⟩
      exact ⟨bad, by simp [hmem], hbad,
        fun acc => by rw [intersectLoop, hname]; exact hloop _⟩

lemma calculate_known (s : Snapshot) (thr : ExamThreshold) (sel : List String)
    (hvalid : ¬(sel = [] ∧ thr = ExamThreshold.all))
    (hk : ∀ n ∈ sel, (data_map s n).isSome) :
    calculate s thr sel = .ok (specCross s thr sel).card := by
  unfold calculate
  rw [if_neg hvalid, intersectLoop_known s sel hk, base_ids_eq_specBase]
  rfl

lemma calculate_ok_inv (s : Snapshot) (thr : ExamThreshold) (sel : List String)
    (n : Nat) (h : calculate s thr sel = .ok n) :
    ¬(sel = [] ∧ thr = ExamThreshold.all) ∧ (∀ nm ∈ sel, (data_map s nm).isSome)
      ∧ n = (specCross s thr sel).card := by
  by_cases hvalid : sel = [] ∧ thr = ExamThreshold.all
  · rw [calculate, if_pos hvalid] at h
    exact absurd h (by simp)
  · have hk : ∀ nm ∈ sel, (data_map s nm).isSome := by
      rw [calculate, if_neg hvalid] at h
      cases hloop : intersectLoop s (base_ids s thr) sel with
      | error e => rw [hloop] at h; exact absurd h (by simp)
      | ok t => exact intersectLoop_ok_known s sel t _ hloop
    have hcalc := calculate_known s thr sel hvalid hk
    rw [hcalc] at h
    exact ⟨hvalid, hk, by injection h with h2; exact h2.symm⟩

lemma specCross_perm (s : Snapshot) (thr : ExamThreshold) {sel sel2 : List String}
    (hp : sel.Perm sel2) : specCross s thr sel = specCross s thr sel2 := by
  unfold specCross
  ext p
  simp only [Finset.mem_filter]
  exact and_congr_right fun _ =>
    ⟨fun h n hn => h n (hp.mem_iff.mpr hn), fun h n hn => h n (hp.mem_iff.mp hn)⟩

lemma specCross_subset_base (s : Snapshot) (thr : ExamThreshold) (sel : List String) :
    specCross s thr sel ⊆ specBase s thr :=
  Finset.filter_subset _ _

lemma specCross_cons_subset (s : Snapshot) (thr : ExamThreshold) (name : String)
    (sel : List String) : specCross s thr (name :: sel) ⊆ specCross s thr sel := by
  intro p hp
  simp only [specCross, Finset.mem_filter, List.mem_cons] at hp ⊢
  exact ⟨hp.1, fun n hn => hp.2 n (Or.inr hn)⟩

lemma data_map_eq_none_iff (s : Snapshot) (name : String) :
    data_map s name = none ↔ name ∉ validSelectors := by
  rw [data_map, validSelectors]
  split_ifs <;> simp_all

lemma sampleIds_filter_subset (t : List SampleRow) (q : SampleRow → Bool) :
    (sampleIds (t.filter q)).toFinset ⊆ (sampleIds t).toFinset := by
  intro x hx
  simp only [sampleIds, List.mem_toFinset, List.mem_map, List.mem_filter] at hx ⊢
  rcases hx with ⟨r, ⟨hr, _⟩, hrx⟩
  exact ⟨r, hr, hrx⟩

lemma examCountOf_eq_image_card (basic : List ExamRow) (p : Nat) :
    examCountOf basic p
      = ((basic.toFinset.filter (fun row => row.patientId = p)).image
          (fun row => row.examVisitId)).card := by
  rw [examCountOf]
  congr 1
  ext v
  simp only [List.mem_toFinset, List.mem_map, List.mem_filter, decide_eq_true_eq,
    Finset.mem_image, Finset.mem_filter]

lemma examCountOf_dup_cons (basic : List ExamRow) (r r' : ExamRow) (hr' : r' ∈ basic)
    (hp : r'.patientId = r.patientId) (hv : r'.examVisitId = r.examVisitId) (p : Nat) :
    examCountOf (r :: basic) p = examCountOf basic p := by
  rw [examCountOf, examCountOf]
  by_cases hpp : r.patientId = p
  · have hfil : (r :: basic).filter (fun x => decide (x.patientId = p))
        = r :: basic.filter (fun x => decide (x.patientId = p)) := by
      simp [List.filter_cons, hpp]
    rw [hfil, List.map_cons, List.toFinset_cons]
    have hmem : r.examVisitId ∈ ((basic.filter (fun x => decide (x.patientId = p))).map
        (fun x => x.examVisitId)).toFinset := by
      rw [List.mem_toFinset]
      exact List.mem_map.mpr ⟨r', List.mem_filter.mpr ⟨hr', by simp [hp, hpp]⟩, hv⟩
    rw [Finset.insert_eq_self.mpr hmem]
  · have hfil : (r :: basic).filter (fun x => decide (x.patientId = p))
        = basic.filter (fun x => decide (x.patientId = p)) := by
      simp [List.filter_cons, hpp]
    rw [hfil]

lemma get_exam_counts_dup (basic : List ExamRow) (r r' : ExamRow) (hr' : r' ∈ basic)
    (hp : r'.patientId = r.patientId) (hv : r'.examVisitId = r.examVisitId) :
    get_exam_counts (r :: basic) = get_exam_counts basic := by
  have hkeys : ((r :: basic).map (fun x => x.patientId)).dedup
      = (basic.map (fun x => x.patientId)).dedup := by
    rw [List.map_cons]
    exact List.dedup_cons_of_mem (List.mem_map.mpr ⟨r', hr', hp⟩)
  rw [get_exam_counts, get_exam_counts, hkeys]
  exact List.map_congr_left fun p _ => by
    rw [examCountOf_dup_cons basic r r' hr' hp hv p]

lemma specCross_nil (s : Snapshot) (thr : ExamThreshold) :
    specCross s thr [] = specBase s thr := by
  rw [specCross]
  apply Finset.filter_true_of_mem
  intro p _ name hname
  exact absurd hname (List.not_mem_nil name)

/-! ## Claim theorems -/

/-- C1: for every loaded snapshot, every exam threshold and every valid
(non-guarded, known-selector) query, `calculate` returns the cardinality
of the intersection of the threshold's base population with the
distinct-patient-id set of each selected dataset. -/
theorem C1_calculate_intersection_card (s : Snapshot) (thr : ExamThreshold)
    (sel : List String)
    (hvalid : ¬(sel = [] ∧ thr = ExamThreshold.all))
    (hk : ∀ name ∈ sel, (data_map s name).isSome) :
    calculate s thr sel = .ok (specCross s thr sel).card :=
  calculate_known s thr sel hvalid hk

/-- C1 witness: the theorem applied at a concrete snapshot and query. -/
theorem C1_calculate_intersection_card_witness :
    calculate demoSnap ExamThreshold.atLeast3 ["血浆样本"]
      = .ok (specCross demoSnap ExamThreshold.atLeast3 ["血浆样本"]).card :=
  C1_calculate_intersection_card demoSnap ExamThreshold.atLeast3 ["血浆样本"]
    (by decide) (by decide)

/-- C2: `get_exam_counts` maps each patient to the number of distinct
exam-visit ids among that patient's rows, and prepending a row whose
patient/visit pair already occurs in the table leaves the output
unchanged (duplicate visit ids never inflate the count). -/
theorem C2_exam_counts_distinct_visits (basic : List ExamRow) :
    (∀ p c, (p, c) ∈ get_exam_counts basic →
      c = ((basic.toFinset.filter (fun row => row.patientId = p)).image
            (fun row => row.examVisitId)).card) ∧
    (∀ r r' : ExamRow, r' ∈ basic → r'.patientId = r.patientId →
      r'.examVisitId = r.examVisitId →
      get_exam_counts (r :: basic) = get_exam_counts basic) := by
  constructor
  · intro p c hmem
    rcases mem_get_exam_counts.mp hmem with ⟨_, hc⟩
    exact hc.trans (examCountOf_eq_image_card basic p)
  · intro r r' hr' hp hv
    exact get_exam_counts_dup basic r r' hr' hp hv

/-- C2 witness: patient 1 of the demonstration table has three distinct
visits, and duplicating one of its visit ids (with a new year) leaves
the whole output unchanged. -/
theorem C2_exam_counts_distinct_visits_witness :
    3 = ((demoSnap.basic.toFinset.filter (fun row => row.patientId = 1)).image
          (fun row => row.examVisitId)).card ∧
    get_exam_counts (⟨1, 10, 2025⟩ :: demoSnap.basic) = get_exam_counts demoSnap.basic :=
  ⟨(C2_exam_counts_distinct_visits demoSnap.basic).1 1 3 (by decide),
   (C2_exam_counts_distinct_visits demoSnap.basic).2 ⟨1, 10, 2025⟩ ⟨1, 10, 2018⟩
     (by decide) rfl rfl⟩

/-- C3: a query result count is invariant under any permutation of the
selected datasets. -/
theorem C3_calculate_perm_invariant (s : Snapshot) (thr : ExamThreshold)
    (sel sel' : List String) (n : Nat) (hperm : sel.Perm sel')
    (h : calculate s thr sel = .ok n) :
    calculate s thr sel' = .ok n := by
  rcases calculate_ok_inv s thr sel n h with ⟨hvalid, hk, hn⟩
  have hvalid' : ¬(sel' = [] ∧ thr = ExamThreshold.all) := by
    rintro ⟨h1, h2⟩
    subst h1
    exact hvalid ⟨hperm.eq_nil, h2⟩
  have hk' : ∀ nm ∈ sel', (data_map s nm).isSome :=
    fun nm hm => hk nm (hperm.mem_iff.mpr hm)
  rw [calculate_known s thr sel' hvalid' hk', ← specCross_perm s thr hperm, ← hn]

/-- C3 witness: swapping the two selected datasets leaves the count. -/
theorem C3_calculate_perm_invariant_witness :
    calculate demoSnap ExamThreshold.atLeast10 ["临床数据", "血浆样本"] = .ok 1 :=
  C3_calculate_perm_invariant demoSnap ExamThreshold.atLeast10
    ["血浆样本", "临床数据"] ["临床数据", "血浆样本"] 1 (by decide) (by decide)

/-- C4: the usage guard fires exactly when the threshold is `全部` and
no dataset is selected; in that case no count is returned. -/
theorem C4_usage_guard_iff (s : Snapshot) (thr : ExamThreshold) (sel : List String) :
    calculate s thr sel = .error QueryError.usageGuard
      ↔ (thr = ExamThreshold.all ∧ sel = []) := by
  constructor
  · intro h
    by_contra hnot
    have hvalid : ¬(sel = [] ∧ thr = ExamThreshold.all) := fun hb => hnot ⟨hb.2, hb.1⟩
    rw [calculate, if_neg hvalid] at h
    cases hloop : intersectLoop s (base_ids s thr) sel with
    | error e =>
      rw [hloop] at h
      injection h with he
      exact intersectLoop_ne_guard s sel _ (he ▸ hloop)
    | ok t =>
      rw [hloop] at h
      exact absurd h (by simp)
  · rintro ⟨h1, h2⟩
    rw [calculate, if_pos ⟨h2, h1⟩]

/-- C5: with a non-`全部` threshold and no selected dataset, the query
returns exactly the size of that threshold's base population, i.e. the
number of patients whose derived exam count meets the bound. -/
theorem C5_empty_selection_base_count (s : Snapshot) (thr : ExamThreshold)
    (h : thr ≠ ExamThreshold.all) :
    calculate s thr [] = .ok (patientsMeeting s.basic (thresholdMin thr)).card := by
  have hvalid : ¬(([] : List String) = [] ∧ thr = ExamThreshold.all) :=
    fun hb => h hb.2
  have hk : ∀ nm ∈ ([] : List String), (data_map s nm).isSome := by simp
  rw [calculate_known s thr [] hvalid hk, specCross_nil]
  cases thr with
  | all => exact absurd rfl h
  | atLeast3 => rfl
  | atLeast10 => rfl

/-- C5 witness: the `≥3` threshold alone counts its base population. -/
theorem C5_empty_selection_base_count_witness :
    calculate demoSnap ExamThreshold.atLeast3 []
      = .ok (patientsMeeting demoSnap.basic (thresholdMin ExamThreshold.atLeast3)).card :=
  C5_empty_selection_base_count demoSnap ExamThreshold.atLeast3 (by decide)

/-- C6: each year-filtered sample dataset has a set of distinct patient
ids contained in its parent's, so its distinct-patient count is no
larger than the parent's. -/
theorem C6_year_filtered_subset (s : Snapshot) :
    ((sampleIds (xue_sample_2019 s)).toFinset ⊆ (sampleIds s.xue_sample).toFinset ∧
      distinctCount (sampleIds (xue_sample_2019 s))
        ≤ distinctCount (sampleIds s.xue_sample)) ∧
    ((sampleIds (baimo_sample_2019 s)).toFinset ⊆ (sampleIds s.baimo_sample).toFinset ∧
      distinctCount (sampleIds (baimo_sample_2019 s))
        ≤ distinctCount (sampleIds s.baimo_sample)) :=
  ⟨⟨sampleIds_filter_subset _ _, Finset.card_le_card (sampleIds_filter_subset _ _)⟩,
   ⟨sampleIds_filter_subset _ _, Finset.card_le_card (sampleIds_filter_subset _ _)⟩⟩

/-- C7: the category summary lists exactly the nine enumerated
categories in their fixed insertion order; each membership category
counts the distinct patient ids of its table and each exam-count
category counts the patients whose derived exam count meets its
threshold. (The summary is a pure function of the snapshot, hence
deterministic across repeated invocations.) -/
theorem C7_stats_enumeration (s : Snapshot) :
    (stats s).map Prod.fst
      = ["体检数据总人数", "体检≥3次", "体检≥10次", "血浆样本", "血浆（19年后）",
         "白膜层样本", "白膜层（19年后）", "WGS表型", "临床数据"] ∧
    (stats s).map Prod.snd
      = [distinctCount (s.basic.map (fun r => r.patientId)),
         (patientsMeeting s.basic 3).card,
         (patientsMeeting s.basic 10).card,
         distinctCount (sampleIds s.xue_sample),
         distinctCount (sampleIds (xue_sample_2019 s)),
         distinctCount (sampleIds s.baimo_sample),
         distinctCount (sampleIds (baimo_sample_2019 s)),
         distinctCount s.wgs,
         distinctCount s.clinical_data] := by
  refine ⟨rfl, ?_⟩
  simp only [stats, List.map_cons, List.map_nil, length_filter_counts]
  rfl

/-- C8: the exam-count table has pairwise-distinct patient ids, its
patients are exactly those appearing in the exam table, and every
listed count is at least 1. -/
theorem C8_exam_counts_domain (basic : List ExamRow) :
    ((get_exam_counts basic).map Prod.fst).Nodup ∧
    (∀ p : Nat, (∃ c, (p, c) ∈ get_exam_counts basic)
        ↔ ∃ r ∈ basic, r.patientId = p) ∧
    (∀ pc ∈ get_exam_counts basic, 1 ≤ pc.2) := by
  refine ⟨nodup_map_fst_get_exam_counts basic, ?_, ?_⟩
  · intro p
    constructor
    · rintro ⟨c, hc⟩
      rcases mem_get_exam_counts.mp hc with ⟨hpmem, _⟩
      exact List.mem_map.mp hpmem
    · rintro ⟨r, hr, hrp⟩
      exact ⟨examCountOf basic p,
        mem_get_exam_counts.mpr ⟨List.mem_map.mpr ⟨r, hr, hrp⟩, rfl⟩⟩
  · intro pc hpc
    rcases mem_get_exam_counts.mp hpc with ⟨hpmem, hc⟩
    rw [hc]
    exact examCountOf_pos basic pc.1 hpmem

/-- C8 witness: concrete entries of the demonstration exam-count table
have positive counts and exactly the exam table's patients appear. -/
theorem C8_exam_counts_domain_witness :
    1 ≤ ((1 : Nat), (3 : Nat)).2 ∧ (∃ r ∈ demoSnap.basic, r.patientId = 2) :=
  ⟨(C8_exam_counts_domain demoSnap.basic).2.2 (1, 3) (by decide),
   ((C8_exam_counts_domain demoSnap.basic).2.1 2).mp ⟨1, by decide⟩⟩

/-- C9: selecting any label outside the six enumerated dataset
categories makes the query fail with an unknown-selector error (the
`KeyError` of the dictionary lookup) instead of returning a count. -/
theorem C9_unknown_selector_error (s : Snapshot) (thr : ExamThreshold)
    (sel : List String) (name : String) (hmem : name ∈ sel)
    (hunk : name ∉ validSelectors) :
    ∃ bad, bad ∈ sel ∧ bad ∉ validSelectors ∧
      calculate s thr sel = .error (QueryError.unknownSelector bad) := by
  have hnone : data_map s name = none := (data_map_eq_none_iff s name).mpr hunk
  rcases intersectLoop_unknown s sel ⟨name, hmem, hnone⟩
    with ⟨bad, hbadmem, hbadnone, hloop⟩
  have hvalid : ¬(sel = [] ∧ thr = ExamThreshold.all) := by
    rintro ⟨h1, _⟩
    subst h1
    exact absurd hmem (List.not_mem_nil name)
  refine ⟨bad, hbadmem, (data_map_eq_none_iff s bad).mp hbadnone, ?_⟩
  rw [calculate, if_neg hvalid, hloop _]

/-- C9 witness: a query containing a label outside the enumerated six
errors out on it. -/
theorem C9_unknown_selector_error_witness :
    ∃ bad, bad ∈ ["血浆样本", "不存在的数据集"] ∧ bad ∉ validSelectors ∧
      calculate demoSnap ExamThreshold.all ["血浆样本", "不存在的数据集"]
        = .error (QueryError.unknownSelector bad) :=
  C9_unknown_selector_error demoSnap ExamThreshold.all
    ["血浆样本", "不存在的数据集"] "不存在的数据集" (by decide) (by decide)

/-- C10: every successful query counts at most the base population of
its threshold, and extending the selection with one more dataset never
increases a successful count. -/
theorem C10_result_antitone (s : Snapshot) (thr : ExamThreshold) :
    (∀ sel n, calculate s thr sel = .ok n → n ≤ (specBase s thr).card) ∧
    (∀ sel name n m, calculate s thr sel = .ok n →
      calculate s thr (name :: sel) = .ok m → m ≤ n) := by
  constructor
  · intro sel n h
    rcases calculate_ok_inv s thr sel n h with ⟨_, _, hn⟩
    rw [hn]
    exact Finset.card_le_card (specCross_subset_base s thr sel)
  · intro sel name n m h1 h2
    rcases calculate_ok_inv s thr sel n h1 with ⟨_, _, hn⟩
    rcases calculate_ok_inv s thr (name :: sel) m h2 with ⟨_, _, hm⟩
    rw [hn, hm]
    exact Finset.card_le_card (specCross_cons_subset s thr name sel)

/-- C10 witness: at the demonstration snapshot, the one-dataset count 2
is bounded by the base population, and adding a second dataset drops
the count from 2 to 1. -/
theorem C10_result_antitone_witness :
    2 ≤ (specBase demoSnap ExamThreshold.atLeast3).card ∧ 1 ≤ 2 :=
  ⟨(C10_result_antitone demoSnap ExamThreshold.atLeast3).1 ["血浆样本"] 2 (by decide),
   (C10_result_antitone demoSnap ExamThreshold.atLeast3).2 ["血浆样本"] "临床数据" 2 1
     (by decide) (by decide)⟩

end Whale
